import Mathlib

/-!
Shallow embedding of `src/support/zephyr_gdb.py`, the Zephyr RTOS GDB
thread-awareness extension.  Host primitives (gdb register access, symbol
lookup, memory reads) are modelled as explicit parameters: a register
read/write in a stopped session is modelled as total where the code's
`try/except` only guards against host faults, except where a claim is
explicitly about the failing case (the stop handler), in which case the
possible failure is an explicit boolean input.  The frame-walk primitive
(`gdb.newest_frame` / `frame.older`) is modelled as a function from the
live register pair to either a failure or the finite list of frame
program counters it would yield, newest first; a `gdb.error` from
`frame.older` mid-walk corresponds to the list simply ending, exactly as
the code `break`s there.
-/

namespace ZephyrGdb

/-- The live CPU stack-pointer / program-counter pair (`$sp` / `$pc`). -/
structure Regs where
  sp : Nat
  pc : Nat
deriving DecidableEq, Repr

/-- Mutable state of the context switcher: the live registers and the
module global `_real_cpu_regs` (the hardware register snapshot,
`None` or a saved sp/pc dict). -/
structure CtxState where
  live : Regs
  real_cpu_regs : Option Regs
deriving DecidableEq, Repr

/-- The data of one `ZephyrThread` that `_switch_thread_context` consumes:
its LWP id, whether `callee_saved` is present (non-`None`, with an
architecture handler attached), and the results of
`arch.get_thread_pc` / `arch.get_thread_sp` on the saved register set
(0 means unknown). -/
structure ThreadCtx where
  lwp : Nat
  has_callee_saved : Bool
  saved_pc : Nat
  saved_sp : Nat
deriving DecidableEq, Repr

/-- `_switch_thread_context(target_thread)` (src lines 708-748).
`hw_active_lwp` is the module global `_hw_active_lwp`.  When the target
is the hardware-active thread, restore the snapshot (if any) into the
live registers and clear it.  Otherwise, when the saved PC and SP both
resolve to non-zero, save the live registers into the snapshot unless
one already exists, then load the thread's saved SP/PC. -/
def switch_thread_context (hw_active_lwp : Option Nat) (t : ThreadCtx)
    (s : CtxState) : CtxState :=
  if hw_active_lwp = some t.lwp then
    match s.real_cpu_regs with
    | some r => { live := r, real_cpu_regs := none }
    | none => s
  else if t.has_callee_saved then
    if t.saved_pc ≠ 0 ∧ t.saved_sp ≠ 0 then
      { live := { sp := t.saved_sp, pc := t.saved_pc },
        real_cpu_regs := some (s.real_cpu_regs.getD s.live) }
    else s
  else s

/-- A sequence of `_switch_thread_context` calls, in order. -/
def switch_seq (hw_active_lwp : Option Nat) (ts : List ThreadCtx)
    (s : CtxState) : CtxState :=
  ts.foldl (fun st t => switch_thread_context hw_active_lwp t st) s

/-- The register-restore part of `stop_handler` (src lines 476-487).
The two `gdb.execute('set $..')` writes may raise; `sp_write_ok` and
`pc_write_ok` say whether each would succeed.  If the `$sp` write
raises, the `$pc` write is never reached (same `try`); the exception is
swallowed and `_real_cpu_regs = None` runs regardless. -/
def stop_handler_restore (sp_write_ok pc_write_ok : Bool)
    (s : CtxState) : CtxState :=
  match s.real_cpu_regs with
  | none => s
  | some r =>
    { live := { sp := if sp_write_ok then r.sp else s.live.sp,
                pc := if sp_write_ok && pc_write_ok then r.pc else s.live.pc },
      real_cpu_regs := none }

/-! ## Offset discovery (src lines 255-360) -/

/-- The fixed, ordered field-name list `OFFSET_FIELDS` (src lines 276-281),
ordered to match the exported offset-array indices. -/
def OFFSET_FIELDS : List String :=
  ["version", "k_curr_thread", "k_threads", "t_entry",
   "t_next_thread", "t_state", "t_user_options", "t_prio",
   "t_stack_pointer", "t_name", "t_arch", "t_preempt_float",
   "t_coop_float"]

/-- The dict comprehension of `discover_offsets_from_symbols`
(src lines 284-286): over the enumerated field names, read the array
entry of each index below `num` (the declared count); any read failure
(`entry i = none`) fails the whole comprehension. -/
def readOffsetEntries (entry : Nat → Option Nat) (num : Int) :
    List (Nat × String) → Option (List (String × Nat))
  | [] => some []
  | (i, name) :: rest =>
    if (i : Int) < num then
      match entry i with
      | none => none
      | some v =>
        match readOffsetEntries entry num rest with
        | none => none
        | some tail => some ((name, v) :: tail)
    else readOffsetEntries entry num rest

/-- `discover_offsets_from_symbols()` (src lines 255-294).
`offsets_symbol_readable` models that `_kernel_thread_info_offsets` is
present and its `value()` readable; `num_symbol` is the value of the
optional `_kernel_thread_info_num_offsets` (absent or unreadable keeps
the default 13); `entry i` models `int(offsets_value[i])`, `none` being
an `IndexError` / `TypeError` / `gdb.error` read failure. -/
def discover_offsets_from_symbols (offsets_symbol_readable : Bool)
    (num_symbol : Option Int) (entry : Nat → Option Nat) :
    Option (List (String × Nat)) :=
  if offsets_symbol_readable then
    readOffsetEntries entry (num_symbol.getD 13) OFFSET_FIELDS.enum
  else none

/-- The resolved offset table: either the hardcoded sentinel of
`get_hardcoded_offsets()` (src lines 318-323), whose fields are `None`
meaning "defer to GDB's type system / named-field access", or the nested
structure built by `adapt_offsets_to_structure` from symbol discovery. -/
inductive OffsetTable
  | hardcodedTable
  | symbolTable (kernel_threads kernel_current : Nat)
      (t_next t_sp t_state t_prio t_name t_entry : Nat)
      (version : Option Nat)
deriving DecidableEq, Repr

/-- `symbol_offsets.get(key, 0)`: look a key up in the flat offset dict,
defaulting to 0. -/
def lookupOffset (flat : List (String × Nat)) (k : String) : Nat :=
  ((flat.find? (fun p => p.1 == k)).map Prod.snd).getD 0

/-- `adapt_offsets_to_structure(symbol_offsets)` (src lines 297-315):
nest the flat field map into the kernel/thread structure, carrying the
optional version through. -/
def adapt_offsets_to_structure (flat : List (String × Nat)) : OffsetTable :=
  .symbolTable (lookupOffset flat "k_threads") (lookupOffset flat "k_curr_thread")
    (lookupOffset flat "t_next_thread") (lookupOffset flat "t_stack_pointer")
    (lookupOffset flat "t_state") (lookupOffset flat "t_prio")
    (lookupOffset flat "t_name") (lookupOffset flat "t_entry")
    ((flat.find? (fun p => p.1 == "version")).map Prod.snd)

/-- `get_hardcoded_offsets()` (src lines 318-323): the sentinel table. -/
def get_hardcoded_offsets : OffsetTable := .hardcodedTable

/-- The discovery mode `_discovery_mode`. -/
inductive Mode
  | auto
  | symbols
  | hardcoded
deriving DecidableEq, Repr

/-- `get_kernel_offsets()` (src lines 326-360).  Returns the resolved
table (or `none` on forced-symbol failure) together with a flag
recording whether a symbol lookup was performed (i.e. whether
`discover_offsets_from_symbols` ran).  Note `if symbol_offsets:` in the
source is Python truthiness: an empty dict falls through to the
failure/fallback paths exactly like `None`. -/
def get_kernel_offsets (mode : Mode) (offsets_symbol_readable : Bool)
    (num_symbol : Option Int) (entry : Nat → Option Nat) :
    Option OffsetTable × Bool :=
  if mode = .hardcoded then
    (some get_hardcoded_offsets, false)
  else
    match discover_offsets_from_symbols offsets_symbol_readable num_symbol entry with
    | some (f :: fs) => (some (adapt_offsets_to_structure (f :: fs)), true)
    | _ =>
      if mode = .symbols then (none, true)
      else (some get_hardcoded_offsets, true)

/-! ## Thread enumeration (src lines 363-474) -/

/-- One registry entry: a thread's identity (the `k_thread` control
structure address, `thread_ptr`) and its session id (`lwp`). -/
structure ThreadRec where
  ptr : Nat
  lwp : Nat
deriving DecidableEq, Repr

/-- Session-id assignment of one enumeration cycle with the running
counter `ZephyrThread.next_lwp`: each `ZephyrThread.__init__` takes the
counter's value and increments it (src lines 80-81). -/
def assign_from (n : Nat) : List Nat → List ThreadRec
  | [] => []
  | p :: ps => ⟨p, n⟩ :: assign_from (n + 1) ps

/-- Session-id assignment of one full cycle: `discover_threads` resets
`ZephyrThread.next_lwp = 1` (src line 375), so the visited nodes get
ids 1, 2, ... in traversal order. -/
def assign_lwps (ptrs : List Nat) : List ThreadRec :=
  assign_from 1 ptrs

/-- The traversal loop of `discover_threads` (src lines 427-447).
`next cur` models `current_ptr.dereference()['next_thread']`, `none`
being a dereference/field failure (loop `break`).  The fuel is the
remaining room under `max_threads = 100`: the loop runs while the
accumulated list is shorter than 100 and the current pointer is
non-null, and stops immediately when the next pointer equals the list
head again. -/
def traverse_go (next : Nat → Option Nat) (head : Nat) :
    Nat → Nat → List Nat
  | _, 0 => []
  | cur, fuel + 1 =>
    if cur = 0 then []
    else
      cur ::
        (match next cur with
         | none => []
         | some nxt => if nxt = head then [] else traverse_go next head nxt fuel)

/-- The full traversal: start at the list head with the 100-node cap. -/
def discover_traverse (next : Nat → Option Nat) (head : Nat) : List Nat :=
  traverse_go next head head 100

/-- The target-visible inputs of one `discover_threads` cycle:
the cached offsets (`_cached_offsets`), whether `_kernel` is readable
(`gdb.parse_and_eval('_kernel')`), the thread-list head
(`kernel['threads']`: `none` = field missing, `some 0` = null), and the
next-pointer links in target memory. -/
structure Target where
  offsets : Option OffsetTable
  kernel_readable : Bool
  threads_head : Option Nat
  next : Nat → Option Nat

/-- `discover_threads()` (src lines 363-474) as a function from the
target and the previous `thread_cache` to the new `thread_cache` plus
the list of announced-as-new thread identities.  Preconditions are
checked in source order (offsets cached, `_kernel` readable, `threads`
field present, head non-null); any failure returns with the previous
cache untouched.  After a completed traversal the new list replaces the
cache wholesale, and every visited identity not in the previous cache
is announced. -/
def discover_threads (tgt : Target) (thread_cache : List ThreadRec) :
    List ThreadRec × List Nat :=
  if tgt.offsets.isNone then (thread_cache, [])
  else if tgt.kernel_readable = false then (thread_cache, [])
  else
    match tgt.threads_head with
    | none => (thread_cache, [])
    | some h =>
      if h = 0 then (thread_cache, [])
      else
        let new_thread_list := assign_lwps (discover_traverse tgt.next h)
        let old_thread_set := thread_cache.map (fun t => t.ptr)
        let announced :=
          (new_thread_list.filter
            (fun t => !(old_thread_set.contains t.ptr))).map (fun t => t.ptr)
        (new_thread_list, announced)

/-- `stop_handler(event)` (src lines 476-487): restore and clear any
outstanding hardware register snapshot (write failures swallowed), then
re-run `discover_threads(verbose=False)`, which never touches
`_real_cpu_regs`. -/
def stop_handler (sp_write_ok pc_write_ok : Bool) (tgt : Target)
    (s : CtxState) (thread_cache : List ThreadRec) :
    CtxState × List ThreadRec :=
  (stop_handler_restore sp_write_ok pc_write_ok s,
   (discover_threads tgt thread_cache).1)

/-! ## Frame walking (src lines 780-892) -/

/-- One returned frame: its level and its address (the other MI fields
— function name, source location, architecture — are presentation data
irrelevant to the claims). -/
structure Frame where
  level : Nat
  addr : Nat
deriving DecidableEq, Repr

/-- `_is_valid_code_addr(pc)` (src lines 780-790): address 0 and the
ARM Cortex-M system/PPB region at and above 0xE0000000 are rejected. -/
def is_valid_code_addr (pc : Nat) : Bool :=
  if pc = 0 then false
  else if 0xE0000000 ≤ pc then false
  else true

/-- The materialization filter of `_build_frame_list`:
`(low is None or level >= low) and (high is None or level <= high)`. -/
def in_frame_range (low high : Option Nat) (level : Nat) : Bool :=
  (match low with
   | none => true
   | some l => decide (l ≤ level)) &&
  (match high with
   | none => true
   | some h => decide (level ≤ h))

/-- The frame-chain loop shared by both branches of `_build_frame_list`
(src lines 809-832 and 853-877): walk the chain of program counters
newest-first, stopping at the first implausible address, materializing
the levels inside the requested range. -/
def collect_frames (low high : Option Nat) :
    List Nat → Nat → List Frame
  | [], _ => []
  | pc :: rest, level =>
    if is_valid_code_addr pc then
      (if in_frame_range low high level then [⟨level, pc⟩] else [])
        ++ collect_frames low high rest (level + 1)
    else []

/-- The data of one thread that `_build_frame_list` consumes: the
UI-selected `active` flag (which picks the branch), whether
`callee_saved` is present with an architecture handler, and the resolved
saved PC/SP. -/
structure UThread where
  active : Bool
  has_callee_saved : Bool
  saved_pc : Nat
  saved_sp : Nat
deriving DecidableEq, Repr

/-- The synthetic frame `_build_frame_dict(thread, include_args=False)`
produces for a non-active thread (src lines 679-698): level 0 at the
thread's saved PC when the callee-saved record is available, else the
`0x0` default. -/
def synthetic_frame (t : UThread) : Frame :=
  ⟨0, if t.has_callee_saved then t.saved_pc else 0⟩

/-- The `not unwound` fallback of `_build_frame_list` (src lines
887-890): one synthetic frame when the requested range includes
level 0 (`low is None or low == 0`). -/
def fallback_frames (t : UThread) (low : Option Nat) : List Frame :=
  if low = none ∨ low = some 0 then [synthetic_frame t] else []

/-- `_build_frame_list(thread, low, high)` (src lines 793-892), paired
with the final live registers.  `chain regs` is the host frame-walk
primitive evaluated with the given live registers: `.error` when
`gdb.newest_frame()` raises, otherwise the finite newest-first PC chain
(a `gdb.error` from `frame.older()` ends the list, as the code breaks
there).  For an active thread the live chain is walked in place; the
exception branch appends the synthetic dict (whose own frame read fails
again, leaving the `0x0` default).  For a suspended thread with a
resolvable context the chain is walked at the swapped registers and the
original registers are restored on the `finally` path; when the walk
fails or yields nothing, the synthetic fallback applies. -/
def build_frame_list (chain : Regs → Except Unit (List Nat))
    (t : UThread) (low high : Option Nat) (live : Regs) :
    List Frame × Regs :=
  if t.active then
    match chain live with
    | .ok pcs => (collect_frames low high pcs 0, live)
    | .error _ => ([⟨0, 0⟩], live)
  else if t.has_callee_saved ∧ t.saved_pc ≠ 0 ∧ t.saved_sp ≠ 0 then
    match chain { sp := t.saved_sp, pc := t.saved_pc } with
    | .error _ => (fallback_frames t low, live)
    | .ok pcs =>
      let fs := collect_frames low high pcs 0
      if fs = [] then (fallback_frames t low, live) else (fs, live)
  else (fallback_frames t low, live)

/-! ## Concrete instances used by counterexamples and witnesses -/

/-- A target with a single thread node at address 10 whose next pointer
closes the list back onto the head. -/
def c1_target1 : Target :=
  { offsets := some get_hardcoded_offsets
    kernel_readable := true
    threads_head := some 10
    next := fun p => if p = 10 then some 10 else none }

/-- The same target after a new thread control structure at address 20
was prepended to the kernel list: the list is now 20 → 10 → (head). -/
def c1_target2 : Target :=
  { offsets := some get_hardcoded_offsets
    kernel_readable := true
    threads_head := some 20
    next := fun p => if p = 20 then some 10 else if p = 10 then some 20 else none }

/-- A target whose offset table was never resolved (`_cached_offsets`
is `None`). -/
def c4_target : Target :=
  { offsets := none
    kernel_readable := true
    threads_head := some 1
    next := fun _ => none }

/-- The next-pointer links of a synthetic 5-node list 1 → 2 → 3 → 4 → 5
whose tail points back to the head node 1. -/
def c6_next : Nat → Option Nat := fun p =>
  if p = 5 then some 1
  else if 1 ≤ p ∧ p ≤ 4 then some (p + 1)
  else none

/-! ## Helper lemmas -/

theorem assign_from_map_lwp (ptrs : List Nat) :
    ∀ n, (assign_from n ptrs).map (fun t => t.lwp) = List.range' n ptrs.length := by
  induction ptrs with
  | nil => intro n; rfl
  | cons p ps ih =>
    intro n
    simpa [assign_from, List.range'_succ] using ih (n + 1)

theorem assign_from_map_ptr (ptrs : List Nat) :
    ∀ n, (assign_from n ptrs).map (fun t => t.ptr) = ptrs := by
  induction ptrs with
  | nil => intro n; rfl
  | cons p ps ih =>
    intro n
    simpa [assign_from] using ih (n + 1)

theorem mem_assign_lwps_ptr {ptrs : List Nat} {t : ThreadRec}
    (h : t ∈ assign_lwps ptrs) : t.ptr ∈ ptrs := by
  have := List.mem_map_of_mem (fun t : ThreadRec => t.ptr) h
  rwa [assign_lwps, assign_from_map_ptr ptrs 1] at this

theorem traverse_go_length_le (next : Nat → Option Nat) (head : Nat) :
    ∀ fuel cur, (traverse_go next head cur fuel).length ≤ fuel := by
  intro fuel
  induction fuel with
  | zero => intro cur; simp [traverse_go]
  | succ n ih =>
    intro cur
    by_cases hc : cur = 0
    · simp [traverse_go, hc]
    · simp only [traverse_go, if_neg hc]
      match hn : next cur with
      | none => simp
      | some nxt =>
        by_cases hh : nxt = head
        · simp [hh]
        · simpa [hh] using ih nxt

theorem traverse_go_head_not_mem (next : Nat → Option Nat) (head : Nat) :
    ∀ fuel cur, cur ≠ head →
      head ∉ traverse_go next head cur fuel := by
  intro fuel
  induction fuel with
  | zero => intro cur _; simp [traverse_go]
  | succ n ih =>
    intro cur hcur
    by_cases hc : cur = 0
    · simp [traverse_go, hc]
    · simp only [traverse_go, if_neg hc]
      match hn : next cur with
      | none =>
        simpa using fun h => hcur h.symm
      | some nxt =>
        by_cases hh : nxt = head
        · simpa [hh] using fun h => hcur h.symm
        · intro hmem
          rcases List.mem_cons.mp hmem with h | h
          · exact hcur h.symm
          · exact ih nxt hh (by simpa [hh] using h)

theorem traverse_go_tail_ne_head (next : Nat → Option Nat) (head : Nat) :
    ∀ fuel, ∀ x ∈ (traverse_go next head head fuel).tail, x ≠ head := by
  intro fuel
  cases fuel with
  | zero => simp [traverse_go]
  | succ n =>
    intro x hx
    by_cases hc : head = 0
    · simp [traverse_go, hc] at hx
    · simp only [traverse_go, if_neg hc, List.tail_cons] at hx
      rcases hn : next head with _ | nxt
      · rw [hn] at hx; simp at hx
      · rw [hn] at hx
        by_cases hh : nxt = head
        · simp [hh] at hx
        · have hx' : x ∈ traverse_go next head nxt n := by simpa [hh] using hx
          intro hxh
          exact traverse_go_head_not_mem next head n nxt hh (by rwa [hxh] at hx')

theorem discover_threads_abort (tgt : Target) (reg : List ThreadRec)
    (h : tgt.offsets = none ∨ tgt.kernel_readable = false ∨
         tgt.threads_head = none ∨ tgt.threads_head = some 0) :
    discover_threads tgt reg = (reg, []) := by
  rcases h with h | h | h | h
  · simp [discover_threads, h]
  · unfold discover_threads
    by_cases ho : tgt.offsets.isNone
    · simp [ho]
    · simp [ho, h]
  · unfold discover_threads
    by_cases ho : tgt.offsets.isNone
    · simp [ho]
    · by_cases hk : tgt.kernel_readable = false
      · simp [ho, hk]
      · simp [ho, hk, h]
  · unfold discover_threads
    by_cases ho : tgt.offsets.isNone
    · simp [ho]
    · by_cases hk : tgt.kernel_readable = false
      · simp [ho, hk]
      · simp [ho, hk, h]

theorem discover_threads_success (tgt : Target) (reg : List ThreadRec)
    (ho : ¬ tgt.offsets.isNone) (hk : ¬ tgt.kernel_readable = false)
    {h : Nat} (hh : tgt.threads_head = some h) (h0 : h ≠ 0) :
    discover_threads tgt reg =
      (assign_lwps (discover_traverse tgt.next h),
       ((assign_lwps (discover_traverse tgt.next h)).filter
         (fun t => !((reg.map (fun t => t.ptr)).contains t.ptr))).map
           (fun t => t.ptr)) := by
  unfold discover_threads
  simp [ho, hk, hh, h0]

theorem discover_threads_rerun (tgt : Target) (reg : List ThreadRec) :
    discover_threads tgt (discover_threads tgt reg).1 =
      ((discover_threads tgt reg).1, ([] : List Nat)) := by
  by_cases habort : tgt.offsets = none ∨ tgt.kernel_readable = false ∨
      tgt.threads_head = none ∨ tgt.threads_head = some 0
  · rw [discover_threads_abort tgt reg habort]
    exact discover_threads_abort tgt reg habort
  · push_neg at habort
    obtain ⟨hon, hkn, hhn, hh0⟩ := habort
    obtain ⟨h, hh⟩ := Option.ne_none_iff_exists'.mp hhn
    have h0 : h ≠ 0 := fun e => hh0 (by rw [hh, e])
    have ho : ¬ tgt.offsets.isNone := by simp [Option.isNone_iff_eq_none, hon]
    rw [discover_threads_success tgt reg ho hkn hh h0,
        discover_threads_success tgt _ ho hkn hh h0]
    have hfil : (assign_lwps (discover_traverse tgt.next h)).filter
        (fun t => !(((assign_lwps (discover_traverse tgt.next h)).map
          (fun t => t.ptr)).contains t.ptr)) = [] := by
      rw [List.filter_eq_nil_iff]
      intro t ht
      rw [assign_lwps, assign_from_map_ptr]
      simp only [Bool.not_eq_true', Bool.not_eq_false]
      exact List.elem_iff.mpr (mem_assign_lwps_ptr ht)
    rw [hfil]
    rfl

/-! ## Claim theorems -/

/-- Claim C4 (confirmed): if any enumeration precondition fails — no
cached offset table, kernel anchor unreadable, or thread-list head
pointer null or absent — the cycle aborts and the thread list visible
after the aborted cycle equals the thread list visible before it. -/
theorem C4_abort_preserves_registry (tgt : Target) (reg : List ThreadRec)
    (h : tgt.offsets = none ∨ tgt.kernel_readable = false ∨
         tgt.threads_head = none ∨ tgt.threads_head = some 0) :
    (discover_threads tgt reg).1 = reg := by
  rw [discover_threads_abort tgt reg h]

/-- Witness for C4: a concrete aborted cycle (offsets never resolved)
leaves a one-thread registry exactly as it was. -/
theorem C4_abort_preserves_registry_witness :
    (discover_threads c4_target [⟨5, 1⟩]).1 = [⟨5, 1⟩] :=
  C4_abort_preserves_registry c4_target [⟨5, 1⟩] (Or.inl rfl)

/-- Claim C1, counterexample: the claim says a thread identity present
in the previous registry snapshot keeps its session id in the new
snapshot, but `discover_threads` resets the id counter to 1 at the
start of every cycle and re-creates every thread.  Concretely: a first
cycle over a one-node list gives the control structure at address 10
the session id 1; after a new thread at address 20 is prepended to the
kernel list, the next cycle gives identity 10 — still present in the
previous snapshot with id 1 — the session id 2. -/
theorem C1_counterexample :
    (discover_threads c1_target1 []).1 = [⟨10, 1⟩] ∧
    (discover_threads c1_target2 [⟨10, 1⟩]).1 = [⟨20, 1⟩, ⟨10, 2⟩] := by
  exact ⟨by decide, by decide⟩

/-- Claim C1 (amended, proved): within each enumeration cycle, session
ids are unique and assigned 1, 2, ... in traversal order (the id
counter is reset to 1 at the start of every cycle, not preserved for
the process lifetime, so an identity present in the previous snapshot
keeps its id only when its traversal position is unchanged);
re-enumerating an unchanged target reproduces the identical registry
and reports no new threads. -/
theorem C1_session_ids_per_cycle :
    (∀ ptrs : List Nat,
      (assign_lwps ptrs).map (fun t => t.lwp) = List.range' 1 ptrs.length) ∧
    (∀ (tgt : Target) (reg : List ThreadRec),
      discover_threads tgt (discover_threads tgt reg).1 =
        ((discover_threads tgt reg).1, ([] : List Nat))) :=
  ⟨fun ptrs => assign_from_map_lwp ptrs 1, discover_threads_rerun⟩

/-- Claim C6 (confirmed): thread-list traversal materializes at most
100 nodes for every memory content, never revisits the list head
(it stops immediately when a next pointer equals the head again), and
on the synthetic 5-node list whose tail points back to the head it
completes with exactly the 5 nodes. -/
theorem C6_traversal_bounded :
    (∀ (next : Nat → Option Nat) (head : Nat),
      (discover_traverse next head).length ≤ 100) ∧
    (∀ (next : Nat → Option Nat) (head : Nat),
      ∀ x ∈ (discover_traverse next head).tail, x ≠ head) ∧
    discover_traverse c6_next 1 = [1, 2, 3, 4, 5] :=
  ⟨fun next head => traverse_go_length_le next head 100 head,
   fun next head => traverse_go_tail_ne_head next head 100,
   by decide⟩

/-- Witness for C6: the length bound and the no-head-revisit property
evaluated on the concrete 5-node cycle (node 2 is in the traversal's
tail and is indeed not the head). -/
theorem C6_traversal_bounded_witness :
    (discover_traverse c6_next 1).length ≤ 100 ∧ (2 : Nat) ≠ 1 :=
  ⟨C6_traversal_bounded.1 c6_next 1,
   C6_traversal_bounded.2.1 c6_next 1 2 (by decide)⟩

theorem switch_seq_invariant (a : Nat) (r : Regs) :
    ∀ (ts : List ThreadCtx) (st : CtxState),
      ((st.real_cpu_regs = none ∧ st.live = r) ∨ st.real_cpu_regs = some r) →
      (∀ t ∈ ts, t.lwp ≠ a) →
      (((switch_seq (some a) ts st).real_cpu_regs = none ∧
          (switch_seq (some a) ts st).live = r) ∨
        (switch_seq (some a) ts st).real_cpu_regs = some r) := by
  intro ts
  induction ts with
  | nil => intro st hst _; exact hst
  | cons t rest ih =>
    intro st hst hts
    have hstep : (((switch_thread_context (some a) t st).real_cpu_regs = none ∧
        (switch_thread_context (some a) t st).live = r) ∨
        (switch_thread_context (some a) t st).real_cpu_regs = some r) := by
      have hne : ¬ ((some a : Option Nat) = some t.lwp) := by
        intro he
        exact hts t (List.mem_cons_self t rest) (Option.some.inj he).symm
      unfold switch_thread_context
      rw [if_neg hne]
      by_cases hcs : t.has_callee_saved
      · rw [if_pos hcs]
        by_cases hpc : t.saved_pc ≠ 0 ∧ t.saved_sp ≠ 0
        · rw [if_pos hpc]
          rcases hst with ⟨h1, h2⟩ | h1
          · right; simp [h1, h2]
          · right; simp [h1]
        · rw [if_neg hpc]; exact hst
      · rw [if_neg hcs]; exact hst
    have hrest : ∀ u ∈ rest, u.lwp ≠ a := fun u hu =>
      hts u (List.mem_cons_of_mem t hu)
    exact ih (switch_thread_context (some a) t st) hstep hrest

/-- Claim C2 (confirmed): starting with no outstanding snapshot,
switching from the hardware-active thread `A` through any sequence of
suspended threads and then back to `A` restores the original live
SP/PC exactly and leaves no snapshot; moreover the snapshot, whenever
it exists along the way, holds exactly the originally captured live
registers (it is saved on the first substitution only, never
re-saved). -/
theorem C2_switch_roundtrip (a : Nat) (A : ThreadCtx) (ts : List ThreadCtx)
    (s : CtxState) (hA : A.lwp = a) (hs : s.real_cpu_regs = none)
    (hts : ∀ t ∈ ts, t.lwp ≠ a) :
    ((switch_thread_context (some a) A (switch_seq (some a) ts s)).live = s.live ∧
     (switch_thread_context (some a) A
        (switch_seq (some a) ts s)).real_cpu_regs = none) ∧
    (∀ r, (switch_seq (some a) ts s).real_cpu_regs = some r → r = s.live) := by
  have hinv := switch_seq_invariant a s.live ts s (Or.inl ⟨hs, rfl⟩) hts
  have heq : (some a : Option Nat) = some A.lwp := by rw [hA]
  constructor
  · unfold switch_thread_context
    rw [if_pos heq]
    rcases hinv with ⟨h1, h2⟩ | h1
    · rw [h1]; exact ⟨h2, h1⟩
    · rw [h1]; exact ⟨rfl, rfl⟩
  · intro r hr
    rcases hinv with ⟨h1, _⟩ | h1
    · rw [h1] at hr; cases hr
    · rw [h1] at hr; exact (Option.some.inj hr).symm

/-- Witness for C2: the concrete round trip hardware-active thread 1 →
suspended thread 2 (saved sp 5, pc 6) → thread 1 ends with the live
registers back at their original values (sp 100, pc 200). -/
theorem C2_switch_roundtrip_witness :
    (switch_thread_context (some 1) ⟨1, false, 0, 0⟩
      (switch_seq (some 1) [⟨2, true, 6, 5⟩] ⟨⟨100, 200⟩, none⟩)).live =
      (⟨100, 200⟩ : Regs) :=
  (C2_switch_roundtrip 1 ⟨1, false, 0, 0⟩ [⟨2, true, 6, 5⟩] ⟨⟨100, 200⟩, none⟩
    rfl rfl (by decide)).1.1

/-- Claim C7 (confirmed): switching context to a suspended thread whose
saved PC or saved SP resolves to 0 is a silent no-op — the whole
context-switcher state (live registers and snapshot) is unchanged. -/
theorem C7_unknown_context_noop (hw : Option Nat) (t : ThreadCtx)
    (s : CtxState) (hlwp : hw ≠ some t.lwp)
    (h0 : t.saved_pc = 0 ∨ t.saved_sp = 0) :
    switch_thread_context hw t s = s := by
  unfold switch_thread_context
  rw [if_neg hlwp]
  by_cases hcs : t.has_callee_saved
  · rw [if_pos hcs, if_neg]
    rcases h0 with h | h
    · exact fun hc => hc.1 h
    · exact fun hc => hc.2 h
  · rw [if_neg hcs]

/-- Witness for C7: switching to suspended thread 2 whose saved PC
resolves to 0 leaves the concrete state untouched. -/
theorem C7_unknown_context_noop_witness :
    switch_thread_context (some 1) ⟨2, true, 0, 5⟩ ⟨⟨100, 200⟩, none⟩ =
      (⟨⟨100, 200⟩, none⟩ : CtxState) :=
  C7_unknown_context_noop (some 1) ⟨2, true, 0, 5⟩ ⟨⟨100, 200⟩, none⟩
    (by decide) (Or.inl rfl)

/-- Claim C10 (confirmed): after the stop-event handler runs, the
hardware register snapshot is cleared to the empty state for every
input — including when either register write-back raises (the
exception is swallowed and the snapshot is dropped anyway). -/
theorem C10_stop_clears_snapshot (sp_write_ok pc_write_ok : Bool)
    (tgt : Target) (s : CtxState) (cache : List ThreadRec) :
    (stop_handler sp_write_ok pc_write_ok tgt s cache).1.real_cpu_regs = none := by
  unfold stop_handler stop_handler_restore
  rcases h : s.real_cpu_regs with _ | r
  · simpa using h
  · rfl

theorem collect_frames_valid (low high : Option Nat) :
    ∀ (pcs : List Nat) (s : Nat), ∀ f ∈ collect_frames low high pcs s,
      is_valid_code_addr f.addr = true := by
  intro pcs
  induction pcs with
  | nil => intro s f hf; simp [collect_frames] at hf
  | cons pc rest ih =>
    intro s f hf
    by_cases hv : is_valid_code_addr pc
    · simp only [collect_frames, if_pos hv, List.mem_append] at hf
      rcases hf with hl | hr
      · by_cases hrange : in_frame_range low high s
        · rw [if_pos hrange] at hl
          have : f = ⟨s, pc⟩ := List.mem_singleton.mp hl
          rw [this]
          exact hv
        · rw [if_neg hrange] at hl; simp at hl
      · exact ih (s + 1) f hr
    · simp [collect_frames, hv] at hf

theorem collect_frames_level_lt (low high : Option Nat) :
    ∀ (pcs : List Nat) (s i : Nat) (h : i < pcs.length),
      is_valid_code_addr (pcs.get ⟨i, h⟩) = false →
      ∀ f ∈ collect_frames low high pcs s, f.level < s + i := by
  intro pcs
  induction pcs with
  | nil => intro s i h; simp at h
  | cons pc rest ih =>
    intro s i h hinv f hf
    by_cases hv : is_valid_code_addr pc
    · cases i with
      | zero =>
        rw [show (pc :: rest).get ⟨0, h⟩ = pc from rfl, hv] at hinv
        cases hinv
      | succ j =>
        simp only [collect_frames, if_pos hv, List.mem_append] at hf
        rcases hf with hl | hr
        · by_cases hrange : in_frame_range low high s
          · rw [if_pos hrange] at hl
            have : f = ⟨s, pc⟩ := List.mem_singleton.mp hl
            rw [this]
            show s < s + (j + 1)
            omega
          · rw [if_neg hrange] at hl; simp at hl
        · have hj : j < rest.length := Nat.lt_of_succ_lt_succ h
          have hget : rest.get ⟨j, hj⟩ = (pc :: rest).get ⟨j + 1, h⟩ := rfl
          have := ih (s + 1) j hj (by rw [hget]; exact hinv) f hr
          omega
    · simp [collect_frames, hv] at hf

/-- Claim C3 (confirmed): when unwinding a suspended thread, the live
registers after `_build_frame_list` returns equal their values on
entry, on every path — resolvable context with a successful walk,
a failing walk, an unresolvable context, and the synthetic-fallback
path alike. -/
theorem C3_registers_restored (chain : Regs → Except Unit (List Nat))
    (t : UThread) (low high : Option Nat) (live : Regs)
    (h : t.active = false) :
    (build_frame_list chain t low high live).2 = live := by
  unfold build_frame_list
  rw [if_neg (by simp [h])]
  by_cases hc : t.has_callee_saved ∧ t.saved_pc ≠ 0 ∧ t.saved_sp ≠ 0
  · rw [if_pos hc]
    cases hch : chain { sp := t.saved_sp, pc := t.saved_pc } with
    | error e => rfl
    | ok pcs =>
      by_cases hfs : collect_frames low high pcs 0 = []
      · simp [hfs]
      · simp [hfs]
  · rw [if_neg hc]

/-- Witness for C3: unwinding a concrete suspended thread over a
two-frame mocked chain returns with the live registers still at their
entry values (sp 1, pc 2). -/
theorem C3_registers_restored_witness :
    (build_frame_list (fun _ => .ok [4096, 4100]) ⟨false, true, 4096, 8192⟩
      none none ⟨1, 2⟩).2 = (⟨1, 2⟩ : Regs) :=
  C3_registers_restored (fun _ => .ok [4096, 4100]) ⟨false, true, 4096, 8192⟩
    none none ⟨1, 2⟩ rfl

/-- Claim C9, counterexample: the claim says no frame with address 0 or
at/above 0xE0000000 ever appears in the returned frame sequence, but
for a suspended thread whose walk yields nothing, `_build_frame_list`
falls back to a synthetic level-0 frame built from the thread's saved
PC without any plausibility check: with saved PC 0xE0000000 the
returned sequence contains exactly that rejected address. -/
theorem C9_counterexample :
    (build_frame_list (fun _ => .ok []) ⟨false, true, 0xE0000000, 0x20000000⟩
        none none ⟨0, 0⟩).1 = [⟨0, 0xE0000000⟩] ∧
    is_valid_code_addr 0xE0000000 = false :=
  ⟨by decide, by decide⟩

/-- Claim C9 (amended, proved): during the frame walk itself, a
candidate address of 0 or at/above 0xE0000000 is rejected and
terminates the walk: every frame the walk materializes has a plausible
address, and no frame at or beyond an implausible chain position is
materialized; for the hardware-active thread the walk output is exactly
the returned sequence.  (The synthetic level-0 fallback frame for a
suspended thread whose walk yields nothing is built from the saved PC
without this check and is exempt.) -/
theorem C9_walk_rejects_invalid :
    (∀ (low high : Option Nat) (pcs : List Nat),
      ∀ f ∈ collect_frames low high pcs 0, is_valid_code_addr f.addr = true) ∧
    (∀ (low high : Option Nat) (pcs : List Nat) (i : Nat) (h : i < pcs.length),
      is_valid_code_addr (pcs.get ⟨i, h⟩) = false →
      ∀ f ∈ collect_frames low high pcs 0, f.level < i) ∧
    (∀ (chain : Regs → Except Unit (List Nat)) (t : UThread)
        (low high : Option Nat) (live : Regs) (pcs : List Nat),
      t.active = true → chain live = .ok pcs →
      (build_frame_list chain t low high live).1 = collect_frames low high pcs 0) := by
  refine ⟨fun low high pcs => collect_frames_valid low high pcs 0,
          fun low high pcs i h hinv f hf => ?_,
          fun chain t low high live pcs hact hch => ?_⟩
  · have := collect_frames_level_lt low high pcs 0 i h hinv f hf
    omega
  · unfold build_frame_list
    rw [if_pos (by simp [hact])]
    rw [hch]

/-- Witness for C9: on the concrete chain [0x100, 0] the walk keeps
only the level-0 frame at the valid address 0x100 — its address passes
the plausibility check and its level is below the invalid position 1. -/
theorem C9_walk_rejects_invalid_witness :
    is_valid_code_addr (Frame.mk 0 256).addr = true ∧ (Frame.mk 0 256).level < 1 :=
  ⟨C9_walk_rejects_invalid.1 none none [256, 0] ⟨0, 256⟩ (by decide),
   C9_walk_rejects_invalid.2.1 none none [256, 0] 1 (by decide) (by decide)
     ⟨0, 256⟩ (by decide)⟩

theorem readOffsetEntries_fail (entry : Nat → Option Nat) (num : Int) :
    ∀ (fields : List (Nat × String)) (j : Nat) (name : String),
      (j, name) ∈ fields → (j : Int) < num → entry j = none →
      readOffsetEntries entry num fields = none := by
  intro fields
  induction fields with
  | nil => intro j name h; simp at h
  | cons p rest ih =>
    intro j name hmem hlt hnone
    rcases List.mem_cons.mp hmem with h | h
    · rcases p with ⟨i, nm⟩
      cases h
      unfold readOffsetEntries
      rw [if_pos hlt, hnone]
    · rcases p with ⟨i, nm⟩
      unfold readOffsetEntries
      by_cases hi : (i : Int) < num
      · rw [if_pos hi]
        cases he : entry i with
        | none => rfl
        | some v => rw [ih j name h hlt hnone]
      · rw [if_neg hi]
        exact ih j name h hlt hnone

theorem readOffsetEntries_length (entry : Nat → Option Nat) (num : Int) :
    ∀ (fields : List (Nat × String)) (res : List (String × Nat)),
      readOffsetEntries entry num fields = some res →
      res.length =
        (fields.filter (fun p => decide ((p.1 : Int) < num))).length := by
  intro fields
  induction fields with
  | nil =>
    intro res h
    rw [readOffsetEntries] at h
    cases h
    rfl
  | cons p rest ih =>
    intro res h
    rcases p with ⟨i, nm⟩
    unfold readOffsetEntries at h
    by_cases hi : (i : Int) < num
    · rw [if_pos hi] at h
      cases he : entry i with
      | none => rw [he] at h; cases h
      | some v =>
        rw [he] at h
        cases ht : readOffsetEntries entry num rest with
        | none => rw [ht] at h; cases h
        | some tail =>
          rw [ht] at h
          cases h
          rw [List.filter_cons_of_pos (by simpa using hi)]
          simpa using ih tail ht
    · rw [if_neg hi] at h
      rw [List.filter_cons_of_neg (by simpa using hi)]
      exact ih res h

theorem filter_enumFrom_count (num : Int) :
    ∀ (names : List String) (s : Nat),
      ((List.enumFrom s names).filter
        (fun p => decide ((p.1 : Int) < num))).length
        = (min (num - s) names.length).toNat := by
  intro names
  induction names with
  | nil => intro s; simp; omega
  | cons a rest ih =>
    intro s
    rw [List.enumFrom_cons]
    by_cases hs : (s : Int) < num
    · rw [List.filter_cons_of_pos (by simpa using hs)]
      simp only [List.length_cons]
      rw [ih (s + 1)]
      push_cast
      omega
    · rw [List.filter_cons_of_neg (by simpa using hs)]
      rw [ih (s + 1)]
      push_cast
      omega

/-- Claim C5 (confirmed): offset resolution obeys the mode exactly —
`hardcoded` returns the sentinel table and never performs a symbol
lookup (the lookup-performed flag is false); `symbols` with the export
symbol absent returns no table and does not fall back; `auto` with
symbol discovery failing falls back to the hardcoded sentinel table
and succeeds. -/
theorem C5_discovery_mode_policy :
    (∀ (present : Bool) (num_symbol : Option Int) (entry : Nat → Option Nat),
      get_kernel_offsets .hardcoded present num_symbol entry =
        (some get_hardcoded_offsets, false)) ∧
    (∀ (num_symbol : Option Int) (entry : Nat → Option Nat),
      get_kernel_offsets .symbols false num_symbol entry = (none, true)) ∧
    (∀ (num_symbol : Option Int) (entry : Nat → Option Nat),
      get_kernel_offsets .auto false num_symbol entry =
        (some get_hardcoded_offsets, true)) :=
  ⟨fun _ _ _ => rfl, fun _ _ => rfl, fun _ _ => rfl⟩

/-- Claim C8, counterexample: the claim says a successful symbol
discovery fills exactly as many fields as the declared count, but the
field-name list has only 13 entries: with a declared count of 14 and
every entry readable, discovery succeeds with 13 fields, not 14. -/
theorem C8_counterexample :
    (discover_offsets_from_symbols true (some 14) (fun _ => some 0)).map
      List.length = some 13 ∧ (14 : Int) ≠ 13 :=
  ⟨by decide, by decide⟩

/-- Claim C8 (amended, proved): symbol-based discovery never returns a
partial table — if reading any entry within the declared count (and the
13 known field names) fails, the whole operation returns no table; on
success it fills exactly min(declared count, 13) fields, clamped to 0
for a non-positive count, the count defaulting to 13 when the count
symbol is absent. -/
theorem C8_no_partial_table :
    (∀ (present : Bool) (num_symbol : Option Int) (entry : Nat → Option Nat)
        (j : Nat),
      j < 13 → (j : Int) < num_symbol.getD 13 → entry j = none →
      discover_offsets_from_symbols present num_symbol entry = none) ∧
    (∀ (present : Bool) (num_symbol : Option Int) (entry : Nat → Option Nat)
        (flat : List (String × Nat)),
      discover_offsets_from_symbols present num_symbol entry = some flat →
      flat.length = (min (num_symbol.getD 13) 13).toNat) := by
  constructor
  · intro present num_symbol entry j hj hlt hnone
    cases present with
    | false => rfl
    | true =>
      have hj' : j < OFFSET_FIELDS.enum.length := by
        rw [List.enum_length]
        exact hj
      have hmem := List.getElem_mem hj'
      rw [List.getElem_enum] at hmem
      simp only [discover_offsets_from_symbols, if_pos rfl]
      exact readOffsetEntries_fail entry (num_symbol.getD 13) OFFSET_FIELDS.enum
        j _ hmem hlt hnone
  · intro present num_symbol entry flat hsome
    cases present with
    | false => simp [discover_offsets_from_symbols] at hsome
    | true =>
      simp only [discover_offsets_from_symbols, if_pos rfl] at hsome
      rw [readOffsetEntries_length entry (num_symbol.getD 13) OFFSET_FIELDS.enum
        flat hsome]
      rw [List.enum_eq_enumFrom, filter_enumFrom_count (num_symbol.getD 13)
        OFFSET_FIELDS 0]
      have hlen : OFFSET_FIELDS.length = 13 := rfl
      rw [hlen]
      push_cast
      omega

/-- Witness for C8: an unreadable entry 0 with the default count makes
discovery fail whole, and an all-readable table with the declared count
13 fills exactly the 13 named fields. -/
theorem C8_no_partial_table_witness :
    discover_offsets_from_symbols true (some 13) (fun _ => none) = none ∧
    (OFFSET_FIELDS.map (fun n => (n, 1))).length = (min (13 : Int) 13).toNat :=
  ⟨C8_no_partial_table.1 true (some 13) (fun _ => none) 0 (by decide) (by decide)
     rfl,
   C8_no_partial_table.2 true (some 13) (fun _ => some 1)
     (OFFSET_FIELDS.map (fun n => (n, 1))) (by decide)⟩

end ZephyrGdb
